import Mathlib

/-!
Verification of the resumable acquisition engine in `lab1/parse.py`:
the retrying fetcher (`fetch_url`), the lexical classifier
(`is_likely_recipe`), the append-only metadata ledger read/written inside
`collect_for_site`, and the per-site identifier-walk loop itself.

Modelling conventions:
* A Python `str` is modelled as `List Char` (Python `len` counts code
  points, as does `List.length`).
* `time.sleep` and file writes are recorded as events in a trace instead
  of being performed; durations are exact rationals (`ℚ`).
* The network is a pure function supplied as a parameter: for `fetch_url`
  it maps the attempt number to an outcome (a response or a transport
  error, i.e. a raised `requests.RequestException`); for the walker it
  maps an identifier to the `FetchResult` that `fetch_url` returns for it.
* `json.loads` on a ledger line is an external parser: a line is modelled
  as either the record it parses to, or `malformed`, in which case the
  parser raises (modelled with `Except`).
-/

namespace RecipeCrawl

/-- Configuration constant `TARGET_PER_SITE = 150` of `parse.py`. -/
def TARGET_PER_SITE : Nat := 150

/-- Configuration constant `MAX_RETRIES = 3` of `parse.py`. -/
def MAX_RETRIES : Nat := 3

/-- Configuration constant `BACKOFF_FACTOR = 1.5` of `parse.py`, as an exact rational. -/
def BACKOFF_FACTOR : ℚ := 3 / 2

/-- The `(status, body)` pair returned by `fetch_url`: both are `None`
exactly when every retry failed at the transport level. -/
structure FetchResult where
  status : Option Nat
  body : Option (List Char)
deriving Repr, DecidableEq

/-- Outcome of one `session.get` call: either a response (any HTTP
status, body text) or a raised `requests.RequestException`. -/
inductive AttemptOutcome
  | response (status : Nat) (text : List Char)
  | transportError
deriving Repr, DecidableEq

/-- The retry loop of `fetch_url` (lines 46-56): `attempts` is the list of
remaining attempt numbers (Python `range(1, MAX_RETRIES + 1)`), `wait` the
current backoff interval.  Returns the `FetchResult`, the list of sleep
durations performed, and the number of attempts made. -/
def fetch_url_go (outcomes : Nat → AttemptOutcome) :
    List Nat → ℚ → FetchResult × List ℚ × Nat
  | [], _ => (⟨none, none⟩, [], 0)
  | attempt :: rest, wait =>
    match outcomes attempt with
    | .response s t => (⟨some s, some t⟩, [], 1)
    | .transportError =>
      if attempt = MAX_RETRIES then (⟨none, none⟩, [], 1)
      else
        let r := fetch_url_go outcomes rest (wait * BACKOFF_FACTOR)
        (r.1, wait :: r.2.1, r.2.2 + 1)

/-- `fetch_url` of `parse.py` (lines 45-56): up to `MAX_RETRIES` attempts,
initial backoff interval `1.0`, multiplied by `BACKOFF_FACTOR` after each
failed attempt; any received HTTP response is returned immediately. -/
def fetch_url (outcomes : Nat → AttemptOutcome) : FetchResult × List ℚ × Nat :=
  fetch_url_go outcomes (List.range' 1 MAX_RETRIES) 1

/-- Python `str.lower`, restricted per character to the ranges that occur
in this program: ASCII letters and Cyrillic (А-Я → а-я, Ё → ё); all other
characters are left unchanged. -/
def pyLowerChar (c : Char) : Char :=
  if 65 ≤ c.toNat ∧ c.toNat ≤ 90 then Char.ofNat (c.toNat + 32)
  else if 0x410 ≤ c.toNat ∧ c.toNat ≤ 0x42F then Char.ofNat (c.toNat + 0x20)
  else if c.toNat = 0x401 then Char.ofNat 0x451
  else c

/-- Keyword «ингредиент» scanned for by `is_likely_recipe`. -/
def kwIngredient : List Char := "ингредиент".data

/-- Keyword «рецепт» scanned for by `is_likely_recipe`. -/
def kwRecipe : List Char := "рецепт".data

/-- Keyword «приготовление» scanned for by `is_likely_recipe`. -/
def kwPrep : List Char := "приготовление".data

/-- `needle` is an initial segment of `hay` (used to model Python's
substring operator `in`). -/
def leadsWith : List Char → List Char → Bool
  | [], _ => true
  | _ :: _, [] => false
  | a :: as, b :: bs => a == b && leadsWith as bs

/-- Python's substring test `needle in hay`. -/
def containsSub (needle : List Char) : List Char → Bool
  | [] => leadsWith needle []
  | c :: rest => leadsWith needle (c :: rest) || containsSub needle rest

/-- `is_likely_recipe` of `parse.py` (lines 71-83): reject empty bodies
and bodies shorter than 800 characters; then scan the lowercased body for
any of the three domain keywords (the same set for both configured site
keys); otherwise classify by the loose length fallback `len(lower) > 2000`. -/
def is_likely_recipe (html : List Char) (site_key : String) : Bool :=
  if html = [] then false
  else if html.length < 800 then false
  else
    let lower := html.map pyLowerChar
    if site_key = "povarenok" then
      if containsSub kwIngredient lower || containsSub kwRecipe lower ||
          containsSub kwPrep lower then true
      else decide (lower.length > 2000)
    else if site_key = "koolinar" then
      if containsSub kwIngredient lower || containsSub kwRecipe lower ||
          containsSub kwPrep lower then true
      else decide (lower.length > 2000)
    else decide (lower.length > 2000)

/-- C4: for a URL whose every attempt raises a transport failure,
`fetch_url` makes exactly `MAX_RETRIES = 3` attempts, sleeps `1` then
`3/2` time units between consecutive attempts (each wait strictly greater
than the previous), and returns the none/none `FetchResult` without
raising. -/
theorem fetch_exhausts_retries_with_backoff (outcomes : Nat → AttemptOutcome)
    (h : ∀ n, outcomes n = AttemptOutcome.transportError) :
    fetch_url outcomes = (⟨none, none⟩, [1, 3 / 2], 3) ∧
      List.Chain' (· < ·) (fetch_url outcomes).2.1 := by
  have heq : fetch_url outcomes = (⟨none, none⟩, [1, 3 / 2], 3) := by
    show fetch_url_go outcomes (List.range' 1 MAX_RETRIES) 1 = _
    have hr : List.range' 1 MAX_RETRIES = [1, 2, 3] := rfl
    rw [hr]
    simp only [fetch_url_go, h 1, h 2, h 3, MAX_RETRIES, BACKOFF_FACTOR]
    norm_num
  refine ⟨heq, ?_⟩
  rw [heq]
  simp only [List.chain'_cons, List.chain'_singleton, and_true]
  norm_num

/-- Witness for C4 at the always-failing network. -/
theorem fetch_exhausts_retries_with_backoff_witness :
    fetch_url (fun _ => AttemptOutcome.transportError) = (⟨none, none⟩, [1, 3 / 2], 3) ∧
      List.Chain' (· < ·) (fetch_url (fun _ => AttemptOutcome.transportError)).2.1 :=
  fetch_exhausts_retries_with_backoff (fun _ => AttemptOutcome.transportError)
    (fun _ => rfl)

/-- C7: an HTTP response received on the first attempt — in particular one
with a non-2xx status — is returned as-is (status, body), after exactly
one attempt and with no backoff sleep: only transport failures retry. -/
theorem fetch_non2xx_single_attempt (outcomes : Nat → AttemptOutcome)
    (s : Nat) (t : List Char)
    (hresp : outcomes 1 = AttemptOutcome.response s t)
    (hs : s < 200 ∨ 300 ≤ s) :
    fetch_url outcomes = (⟨some s, some t⟩, [], 1) := by
  show fetch_url_go outcomes (List.range' 1 MAX_RETRIES) 1 = _
  have hr : List.range' 1 MAX_RETRIES = [1, 2, 3] := rfl
  rw [hr]
  simp only [fetch_url_go, hresp]

/-- Witness for C7 at a 404 response. -/
theorem fetch_non2xx_single_attempt_witness :
    fetch_url (fun _ => AttemptOutcome.response 404 []) = (⟨some 404, some []⟩, [], 1) :=
  fetch_non2xx_single_attempt (fun _ => AttemptOutcome.response 404 []) 404 []
    rfl (Or.inr (by norm_num))

/-- A 100-character body that contains the keyword «рецепт». -/
def bodyKw100 : List Char := "рецепт".data ++ List.replicate 94 'a'

/-- C1, counterexample: a 100-character body containing the recognized
keyword «рецепт» is classified NEGATIVE by `is_likely_recipe` for site
`povarenok` — the 800-character length floor is checked before the
keyword scan, so keyword presence does not override it. -/
theorem classifier_keyword_short_body_cex :
    bodyKw100.length = 100 ∧
      containsSub kwRecipe (bodyKw100.map pyLowerChar) = true ∧
      is_likely_recipe bodyKw100 "povarenok" = false := by
  refine ⟨by decide, by decide, by decide⟩

/-- C1, amended: for every site key, a body of length 100 — whether or not
it contains a recognized keyword — is classified negative, because the
800-character minimum-length floor is checked before the keyword scan;
keyword presence classifies positive only for bodies of length at least
800. -/
theorem classifier_length_floor_precedes_keywords (site_key : String)
    (html : List Char) (h : html.length = 100) :
    is_likely_recipe html site_key = false := by
  unfold is_likely_recipe
  split
  · rfl
  · rw [h]
    norm_num

/-- Witness for the amended C1 at the concrete keyword-bearing body. -/
theorem classifier_length_floor_precedes_keywords_witness :
    is_likely_recipe bodyKw100 "povarenok" = false :=
  classifier_length_floor_precedes_keywords "povarenok" bodyKw100 (by decide)

/-- C8: for every site key, `is_likely_recipe` rejects a 799-character
body with no recognized keyword, and accepts a 2001-character body with no
recognized keyword via the loose length fallback (`> 2000`). -/
theorem classifier_length_thresholds (site_key : String)
    (short longBody : List Char)
    (hshort : short.length = 799)
    (hlong : longBody.length = 2001)
    (hnk1 : containsSub kwIngredient (longBody.map pyLowerChar) = false)
    (hnk2 : containsSub kwRecipe (longBody.map pyLowerChar) = false)
    (hnk3 : containsSub kwPrep (longBody.map pyLowerChar) = false) :
    is_likely_recipe short site_key = false ∧
      is_likely_recipe longBody site_key = true := by
  constructor
  · unfold is_likely_recipe
    split
    · rfl
    · rw [hshort]
      norm_num
  · have hne : longBody ≠ [] := by
      intro hcon
      rw [hcon] at hlong
      simp at hlong
    unfold is_likely_recipe
    rw [if_neg hne, if_neg (by rw [hlong]; norm_num)]
    simp only [hnk1, hnk2, hnk3, Bool.or_self, Bool.false_or, if_false,
      Bool.or_false, List.length_map, hlong]
    split
    · rfl
    · split
      · rfl
      · rfl

set_option maxRecDepth 100000 in
/-- Witness for C8 at concrete keyword-free bodies of lengths 799 and 2001. -/
theorem classifier_length_thresholds_witness :
    is_likely_recipe (List.replicate 799 'a') "povarenok" = false ∧
      is_likely_recipe (List.replicate 2001 'a') "povarenok" = true :=
  classifier_length_thresholds "povarenok" (List.replicate 799 'a')
    (List.replicate 2001 'a') (by decide) (by decide) (by decide) (by decide)
    (by decide)

/-- One metadata record, the `meta` dict written to `meta.jsonl`
(lines 136-145 of `parse.py`); the spec's DocumentRecord. -/
structure MetaRecord where
  id : Int
  url : String
  raw_path : String
  text_path : String
  raw_size_bytes : Nat
  text_size_bytes : Nat
  word_count : Nat
  status_code : Nat
deriving Repr, DecidableEq

/-- One line of the ledger file as seen through `json.loads`: either it
parses to a full record, or the parser raises. -/
inductive LedgerLine
  | ok (m : MetaRecord)
  | malformed
deriving Repr, DecidableEq

/-- The ledger-reading loop of `collect_for_site` (lines 106-110):
one line at a time, `seen_ids.add(obj["id"])` and `metadata.append(obj)`;
a malformed line makes `json.loads` raise, aborting the load. -/
def loadLines : Finset Int → List MetaRecord → List LedgerLine →
    Except Unit (Finset Int × List MetaRecord)
  | seen, metadata, [] => .ok (seen, metadata)
  | _, _, .malformed :: _ => .error ()
  | seen, metadata, .ok m :: rest => loadLines (insert m.id seen) (metadata ++ [m]) rest

/-- Ledger load (lines 103-110): a missing file yields the empty state;
an existing file is read line by line. -/
def load (file : Option (List LedgerLine)) : Except Unit (Finset Int × List MetaRecord) :=
  match file with
  | none => .ok (∅, [])
  | some lines => loadLines ∅ [] lines

/-- Ledger append (lines 148-149): open in append mode (creating the file
if missing) and write the record as one more line. -/
def appendLedger (file : Option (List LedgerLine)) (m : MetaRecord) :
    Option (List LedgerLine) :=
  some (file.getD [] ++ [LedgerLine.ok m])

theorem loadLines_ok (records : List MetaRecord) :
    ∀ (seen : Finset Int) (metadata : List MetaRecord),
      loadLines seen metadata (records.map LedgerLine.ok) =
        .ok (records.foldl (fun s m => insert m.id s) seen, metadata ++ records) := by
  induction records with
  | nil => intro seen metadata; simp [loadLines]
  | cons m rest ih =>
    intro seen metadata
    simp only [List.map_cons, loadLines, List.foldl_cons, ih]
    simp

theorem foldl_appendLedger (records : List MetaRecord) :
    ∀ ls : List LedgerLine,
      records.foldl appendLedger (some ls) =
        some (ls ++ records.map LedgerLine.ok) := by
  induction records with
  | nil => intro ls; simp
  | cons m rest ih =>
    intro ls
    simp only [List.foldl_cons, appendLedger, Option.getD_some, ih,
      List.map_cons, List.append_assoc, List.singleton_append]

theorem mem_foldl_insert (records : List MetaRecord) :
    ∀ (seen : Finset Int) (i : Int),
      i ∈ records.foldl (fun s m => insert m.id s) seen ↔
        i ∈ seen ∨ i ∈ records.map MetaRecord.id := by
  induction records with
  | nil => intro seen i; simp
  | cons m rest ih =>
    intro seen i
    simp only [List.foldl_cons, ih, Finset.mem_insert, List.map_cons,
      List.mem_cons]
    tauto

theorem card_foldl_insert (records : List MetaRecord) :
    ∀ seen : Finset Int, (records.map MetaRecord.id).Nodup →
      (∀ m ∈ records, m.id ∉ seen) →
      (records.foldl (fun s m => insert m.id s) seen).card =
        seen.card + records.length := by
  induction records with
  | nil => intro seen _ _; simp
  | cons m rest ih =>
    intro seen hnodup hdisj
    simp only [List.map_cons, List.nodup_cons] at hnodup
    simp only [List.foldl_cons]
    rw [ih (insert m.id seen) hnodup.2]
    · rw [Finset.card_insert_of_not_mem (hdisj m (List.mem_cons_self m rest))]
      simp [List.length_cons]
      omega
    · intro m' hm'
      simp only [Finset.mem_insert]
      push_neg
      constructor
      · intro hcon
        exact hnodup.1 (hcon ▸ List.mem_map_of_mem MetaRecord.id hm')
      · exact hdisj m' (List.mem_cons_of_mem m hm')

/-- C3: loading a nonexistent ledger yields the empty state, and after N
appends of records with distinct identifiers the fresh load reconstructs a
seen-set whose members are exactly the N appended identifiers (with
cardinality N) and the record sequence equal to the appended records in
order. -/
theorem ledger_load_append_roundtrip (records : List MetaRecord)
    (hnodup : (records.map MetaRecord.id).Nodup) :
    load none = .ok (∅, []) ∧
      ∃ seen, load (records.foldl appendLedger none) = .ok (seen, records) ∧
        (∀ i, i ∈ seen ↔ i ∈ records.map MetaRecord.id) ∧
        seen.card = records.length := by
  refine ⟨rfl, records.foldl (fun s m => insert m.id s) ∅, ?_, ?_, ?_⟩
  · cases records with
    | nil => rfl
    | cons m rest =>
      simp only [List.foldl_cons, appendLedger, Option.getD_none,
        List.nil_append, foldl_appendLedger, load, List.singleton_append]
      rw [show (LedgerLine.ok m :: rest.map LedgerLine.ok) =
        (m :: rest).map LedgerLine.ok from rfl, loadLines_ok]
      simp
  · intro i
    rw [mem_foldl_insert]
    simp
  · rw [card_foldl_insert records ∅ hnodup (by simp)]
    simp

/-- Witness for C3 at two concrete records with distinct identifiers. -/
theorem ledger_load_append_roundtrip_witness :
    load none = .ok (∅, []) ∧
      ∃ seen,
        load ([⟨5, "u5", "r5", "t5", 10, 4, 2, 200⟩,
               ⟨7, "u7", "r7", "t7", 11, 5, 3, 200⟩].foldl appendLedger none) =
          .ok (seen, [⟨5, "u5", "r5", "t5", 10, 4, 2, 200⟩,
                      ⟨7, "u7", "r7", "t7", 11, 5, 3, 200⟩]) ∧
        (∀ i, i ∈ seen ↔
          i ∈ [⟨5, "u5", "r5", "t5", 10, 4, 2, 200⟩,
               (⟨7, "u7", "r7", "t7", 11, 5, 3, 200⟩ : MetaRecord)].map MetaRecord.id) ∧
        seen.card = 2 :=
  ledger_load_append_roundtrip
    [⟨5, "u5", "r5", "t5", 10, 4, 2, 200⟩, ⟨7, "u7", "r7", "t7", 11, 5, 3, 200⟩]
    (by decide)

/-- UTF-8 byte length of one character (the file sizes reported by
`stat().st_size` after writing `body.encode("utf-8")`). -/
def utf8CharLen (c : Char) : Nat :=
  if c.toNat < 0x80 then 1
  else if c.toNat < 0x800 then 2
  else if c.toNat < 0x10000 then 3
  else 4

/-- UTF-8 byte length of a string. -/
def utf8Length (s : List Char) : Nat := (s.map utf8CharLen).sum

/-- Helper for `countWords`: `inWord` records whether the previous
character belonged to a word. -/
def countWordsGo : List Char → Bool → Nat
  | [], _ => 0
  | c :: rest, inWord =>
    if c.isWhitespace then countWordsGo rest false
    else (if inWord then 0 else 1) + countWordsGo rest true

/-- Python `len(text.split())`: the number of maximal whitespace-free runs. -/
def countWords (s : List Char) : Nat := countWordsGo s false

/-- Observable side effects of one walker run, in order: a `fetch_url`
call for an identifier, the raw/text artifact writes, and the throttling
sleep of `time.sleep(random.uniform(*DELAY_BETWEEN_REQUESTS))`. -/
inductive Event
  | fetch (id : Int)
  | writeRaw (id : Int) (body : List Char)
  | writeText (id : Int) (text : List Char)
  | sleepDelay
deriving Repr, DecidableEq

/-- Whether an event is a `fetch_url` call. -/
def Event.isFetch : Event → Bool
  | .fetch _ => true
  | _ => false

/-- Whether an event is a throttling sleep. -/
def Event.isSleep : Event → Bool
  | .sleepDelay => true
  | _ => false

/-- Per-site configuration: the site key, the URL template
(`pattern.format`), `start_id`, `step`, and the target count
(`TARGET_PER_SITE`, a configuration constant). -/
structure WalkConfig where
  site_key : String
  mkUrl : Int → String
  start_id : Int
  step : Int
  target : Nat

/-- The mutable state of `collect_for_site`'s loop: the ledger file, the
seen-identifier set, the metadata list, the current identifier and the
attempt counter. -/
structure WalkState where
  file : Option (List LedgerLine)
  seen_ids : Finset Int
  metadata : List MetaRecord
  current_id : Int
  attempts : Nat
deriving DecidableEq

/-- Path of the raw artifact `raw_dir / f"{id}.html"`. -/
def mkRawPath (site : String) (id : Int) : String :=
  "recipes_corpus/" ++ site ++ "/raw/" ++ toString id ++ ".html"

/-- Path of the text artifact `text_dir / f"{id}.txt"`. -/
def mkTextPath (site : String) (id : Int) : String :=
  "recipes_corpus/" ++ site ++ "/text/" ++ toString id ++ ".txt"

/-- `current_id += step` (lines 119 and 153). -/
def advance (cfg : WalkConfig) (st : WalkState) : WalkState :=
  { st with current_id := st.current_id + cfg.step }

/-- The `meta` dict built for an accepted identifier (lines 127-145):
artifact paths, sizes of the written raw/text files, word count and the
HTTP status. -/
def mkMeta (cfg : WalkConfig) (id : Int) (s : Nat) (body : List Char)
    (extract : List Char → List Char) : MetaRecord :=
  { id := id
    url := cfg.mkUrl id
    raw_path := mkRawPath cfg.site_key id
    text_path := mkTextPath cfg.site_key id
    raw_size_bytes := utf8Length body
    text_size_bytes := utf8Length (extract body)
    word_count := countWords (extract body)
    status_code := s }

/-- One fetch-bearing iteration of the walk loop (lines 122-152, without
the final `current_id += step`): fetch the current identifier, increment
the attempt counter, and if the status is 200, the body non-empty and the
classifier accepts, write both artifacts, build the record, append it to
the metadata list and the ledger, and add the identifier to the seen-set;
in every case the iteration ends with the throttling sleep.  `extract`
models `extract_text_from_html` (BeautifulSoup-based, external). -/
def walkIter (cfg : WalkConfig) (network : Int → FetchResult)
    (extract : List Char → List Char) (st : WalkState) : WalkState × List Event :=
  let fr := network st.current_id
  let st1 : WalkState := { st with attempts := st.attempts + 1 }
  match fr.status, fr.body with
  | some s, some body =>
    if s = 200 ∧ body ≠ [] then
      if is_likely_recipe body cfg.site_key then
        let meta := mkMeta cfg st.current_id s body extract
        ({ st1 with
            metadata := st1.metadata ++ [meta]
            seen_ids := insert st.current_id st1.seen_ids
            file := appendLedger st1.file meta },
         [Event.fetch st.current_id, Event.writeRaw st.current_id body,
          Event.writeText st.current_id (extract body), Event.sleepDelay])
      else (st1, [Event.fetch st.current_id, Event.sleepDelay])
    else (st1, [Event.fetch st.current_id, Event.sleepDelay])
  | _, _ => (st1, [Event.fetch st.current_id, Event.sleepDelay])

/-- The `while len(seen_ids) < TARGET_PER_SITE` loop of
`collect_for_site` (lines 116-156), with explicit fuel: an identifier
already in the seen-set is skipped immediately (no fetch, no attempt, no
sleep); otherwise one `walkIter` runs.  Returns the final state, the event
trace, and whether the loop ended because the target was reached (`true`)
rather than because the fuel ran out (`false`). -/
def walkGo (cfg : WalkConfig) (network : Int → FetchResult)
    (extract : List Char → List Char) :
    Nat → WalkState → WalkState × List Event × Bool
  | 0, st =>
    if st.seen_ids.card < cfg.target then (st, [], false) else (st, [], true)
  | fuel + 1, st =>
    if st.seen_ids.card < cfg.target then
      if st.current_id ∈ st.seen_ids then
        walkGo cfg network extract fuel (advance cfg st)
      else
        let p := walkIter cfg network extract st
        let r := walkGo cfg network extract fuel (advance cfg p.1)
        (r.1, p.2 ++ r.2.1, r.2.2)
    else (st, [], true)

/-- `collect_for_site` (lines 93-157): load the ledger (propagating a
`json.loads` failure), then run the walk loop from `start_id` with a
zeroed attempt counter. -/
def collect_for_site (cfg : WalkConfig) (network : Int → FetchResult)
    (extract : List Char → List Char) (file : Option (List LedgerLine))
    (fuel : Nat) : Except Unit (WalkState × List Event × Bool) :=
  match load file with
  | .error e => .error e
  | .ok (seen, metadata) =>
    .ok (walkGo cfg network extract fuel
      { file := file, seen_ids := seen, metadata := metadata,
        current_id := cfg.start_id, attempts := 0 })

theorem loadLines_malformed (lines : List LedgerLine)
    (h : LedgerLine.malformed ∈ lines) :
    ∀ (seen : Finset Int) (metadata : List MetaRecord),
      loadLines seen metadata lines = .error () := by
  induction lines with
  | nil => cases h
  | cons l rest ih =>
    intro seen metadata
    cases l with
    | malformed => rfl
    | ok m =>
      have hrest : LedgerLine.malformed ∈ rest := by
        cases h with
        | tail _ h' => exact h'
      simp only [loadLines]
      exact ih hrest _ _

/-- C9: a ledger file containing a malformed line makes the load fail
loudly — `json.loads` raises, `collect_for_site` aborts before any
walking — rather than silently skipping the line and continuing with a
partial seen-set. -/
theorem ledger_malformed_fatal (cfg : WalkConfig) (network : Int → FetchResult)
    (extract : List Char → List Char) (fuel : Nat) (lines : List LedgerLine)
    (h : LedgerLine.malformed ∈ lines) :
    collect_for_site cfg network extract (some lines) fuel = .error () := by
  have hload : load (some lines) = .error () := loadLines_malformed lines h ∅ []
  simp [collect_for_site, hload]

/-- Walk configuration of the concrete scenarios below: site `povarenok`,
identifiers descending from 10, target count 3. -/
def demoCfg : WalkConfig :=
  { site_key := "povarenok"
    mkUrl := fun i => "https://www.povarenok.ru/recipes/show/" ++ toString i ++ "/"
    start_id := 10
    step := -1
    target := 3 }

/-- Witness for C9: one malformed line aborts the site run. -/
theorem ledger_malformed_fatal_witness :
    collect_for_site demoCfg (fun _ => ⟨some 404, some []⟩) (fun b => b)
      (some [LedgerLine.malformed]) 5 = .error () :=
  ledger_malformed_fatal demoCfg (fun _ => ⟨some 404, some []⟩) (fun b => b) 5
    [LedgerLine.malformed] (List.mem_singleton.mpr rfl)

/-- An 800-character body beginning with the keyword «ингредиент». -/
def demoBody : List Char := "ингредиент".data ++ List.replicate 790 'a'

/-- Mocked network of the C5 scenario: of the candidates 10, 9, ..., 1,
exactly 10, 7 and 3 answer 200 with a classifiable body; the rest answer
404 with an empty body. -/
def demoNetwork (id : Int) : FetchResult :=
  if id = 10 ∨ id = 7 ∨ id = 3 then ⟨some 200, some demoBody⟩
  else ⟨some 404, some []⟩

/-- Initial walk state over an empty (missing) ledger, starting at 10. -/
def demoInit : WalkState :=
  { file := none, seen_ids := ∅, metadata := [], current_id := 10, attempts := 0 }

/-- The identifiers fetched in a trace, in order. -/
def fetchIds (tr : List Event) : List Int :=
  tr.filterMap fun e =>
    match e with
    | .fetch i => some i
    | _ => none

set_option maxRecDepth 400000 in
/-- C5: from an empty ledger with target count 3, against a response
sequence classifying exactly the candidates 10, 7 and 3 (of the first ten)
as documents, the walker stops with the target reached after fetching
exactly the candidates 10 down to 3 (the accepted ones plus the rejected
ones along the way), having produced exactly the 3 records 10, 7, 3. -/
theorem walker_stops_at_target_three :
    (walkGo demoCfg demoNetwork (fun b => b) 20 demoInit).2.2 = true ∧
      ((walkGo demoCfg demoNetwork (fun b => b) 20 demoInit).1.metadata.map
        MetaRecord.id) = [10, 7, 3] ∧
      (walkGo demoCfg demoNetwork (fun b => b) 20 demoInit).1.metadata.length = 3 ∧
      fetchIds (walkGo demoCfg demoNetwork (fun b => b) 20 demoInit).2.1 =
        [10, 9, 8, 7, 6, 5, 4, 3] ∧
      (walkGo demoCfg demoNetwork (fun b => b) 20 demoInit).1.attempts = 8 := by
  decide

theorem walkIter_reject (cfg : WalkConfig) (network : Int → FetchResult)
    (extract : List Char → List Char) (st : WalkState)
    (hrej : ∀ b, (network st.current_id).status = some 200 →
        (network st.current_id).body = some b →
        b = [] ∨ is_likely_recipe b cfg.site_key = false) :
    walkIter cfg network extract st =
      ({ st with attempts := st.attempts + 1 },
       [Event.fetch st.current_id, Event.sleepDelay]) := by
  rcases hn : network st.current_id with ⟨os, ob⟩
  rw [hn] at hrej
  simp only at hrej
  unfold walkIter
  rw [hn]
  rcases os with _ | s
  · rcases ob with _ | b <;> rfl
  · rcases ob with _ | b
    · rfl
    · by_cases hs : s = 200
      · subst hs
        rcases hrej b rfl rfl with hb | hcls
        · subst hb
          simp
        · simp [hcls]
      · simp only []
        rw [if_neg (by exact fun hc => hs hc.1)]

theorem walkIter_accept (cfg : WalkConfig) (network : Int → FetchResult)
    (extract : List Char → List Char) (st : WalkState) (b : List Char)
    (hs : (network st.current_id).status = some 200)
    (hb : (network st.current_id).body = some b)
    (hne : b ≠ [])
    (hcls : is_likely_recipe b cfg.site_key = true) :
    walkIter cfg network extract st =
      ({ st with
          attempts := st.attempts + 1
          metadata := st.metadata ++ [mkMeta cfg st.current_id 200 b extract]
          seen_ids := insert st.current_id st.seen_ids
          file := appendLedger st.file (mkMeta cfg st.current_id 200 b extract) },
       [Event.fetch st.current_id, Event.writeRaw st.current_id b,
        Event.writeText st.current_id (extract b), Event.sleepDelay]) := by
  rcases hn : network st.current_id with ⟨os, ob⟩
  rw [hn] at hs hb
  simp only at hs hb
  subst hs
  subst hb
  unfold walkIter
  rw [hn]
  simp [hne, hcls]

theorem walkIter_spec (cfg : WalkConfig) (network : Int → FetchResult)
    (extract : List Char → List Char) (st : WalkState) :
    (walkIter cfg network extract st).1.attempts = st.attempts + 1 ∧
    (walkIter cfg network extract st).1.current_id = st.current_id ∧
    ((walkIter cfg network extract st).2.filter Event.isFetch) =
      [Event.fetch st.current_id] ∧
    ((walkIter cfg network extract st).2.filter Event.isSleep) =
      [Event.sleepDelay] ∧
    (∀ i, Event.fetch i ∈ (walkIter cfg network extract st).2 →
      i = st.current_id) ∧
    (((walkIter cfg network extract st).1.metadata = st.metadata ∧
      (walkIter cfg network extract st).1.seen_ids = st.seen_ids ∧
      (walkIter cfg network extract st).1.file = st.file) ∨
     (∃ m, m.id = st.current_id ∧
       (walkIter cfg network extract st).1.metadata = st.metadata ++ [m] ∧
       (walkIter cfg network extract st).1.seen_ids =
         insert st.current_id st.seen_ids)) := by
  by_cases hacc : ∃ b, (network st.current_id).status = some 200 ∧
      (network st.current_id).body = some b ∧ b ≠ [] ∧
      is_likely_recipe b cfg.site_key = true
  · obtain ⟨b, hs, hb, hne, hcls⟩ := hacc
    rw [walkIter_accept cfg network extract st b hs hb hne hcls]
    refine ⟨rfl, rfl, by simp [Event.isFetch, Event.isSleep], by
      simp [Event.isFetch, Event.isSleep], ?_, Or.inr
        ⟨mkMeta cfg st.current_id 200 b extract, rfl, rfl, rfl⟩⟩
    intro i hi
    simp at hi
    exact hi
  · have hrej : ∀ b, (network st.current_id).status = some 200 →
        (network st.current_id).body = some b →
        b = [] ∨ is_likely_recipe b cfg.site_key = false := by
      intro b hs hb
      by_cases hne : b = []
      · exact Or.inl hne
      · refine Or.inr ?_
        by_cases hcls : is_likely_recipe b cfg.site_key = true
        · exact absurd ⟨b, hs, hb, hne, hcls⟩ hacc
        · simpa using hcls
    rw [walkIter_reject cfg network extract st hrej]
    refine ⟨rfl, rfl, by simp [Event.isFetch, Event.isSleep], by
      simp [Event.isFetch, Event.isSleep], ?_, Or.inl ⟨rfl, rfl, rfl⟩⟩
    intro i hi
    simp at hi
    exact hi

theorem walkGo_done (cfg : WalkConfig) (network : Int → FetchResult)
    (extract : List Char → List Char) (fuel : Nat) (st : WalkState)
    (h : ¬ st.seen_ids.card < cfg.target) :
    walkGo cfg network extract fuel st = (st, [], true) := by
  cases fuel <;> simp only [walkGo, if_neg h]

theorem walkGo_succ_skip (cfg : WalkConfig) (network : Int → FetchResult)
    (extract : List Char → List Char) (fuel : Nat) (st : WalkState)
    (h1 : st.seen_ids.card < cfg.target) (h2 : st.current_id ∈ st.seen_ids) :
    walkGo cfg network extract (fuel + 1) st =
      walkGo cfg network extract fuel (advance cfg st) := by
  simp only [walkGo, if_pos h1, if_pos h2]

theorem walkGo_succ_fetch (cfg : WalkConfig) (network : Int → FetchResult)
    (extract : List Char → List Char) (fuel : Nat) (st : WalkState)
    (h1 : st.seen_ids.card < cfg.target) (h2 : st.current_id ∉ st.seen_ids) :
    walkGo cfg network extract (fuel + 1) st =
      ((walkGo cfg network extract fuel
          (advance cfg (walkIter cfg network extract st).1)).1,
       (walkIter cfg network extract st).2 ++
         (walkGo cfg network extract fuel
           (advance cfg (walkIter cfg network extract st).1)).2.1,
       (walkGo cfg network extract fuel
         (advance cfg (walkIter cfg network extract st).1)).2.2) := by
  simp only [walkGo, if_pos h1, if_neg h2]

theorem walk_preserves_nodup (cfg : WalkConfig) (network : Int → FetchResult)
    (extract : List Char → List Char) (fuel : Nat) :
    ∀ st : WalkState, (∀ m ∈ st.metadata, m.id ∈ st.seen_ids) →
      (st.metadata.map MetaRecord.id).Nodup →
      (((walkGo cfg network extract fuel st).1.metadata.map MetaRecord.id).Nodup ∧
        ∀ m ∈ (walkGo cfg network extract fuel st).1.metadata,
          m.id ∈ (walkGo cfg network extract fuel st).1.seen_ids) := by
  induction fuel with
  | zero =>
    intro st hmeta hnodup
    simp only [walkGo]
    split <;> exact ⟨hnodup, hmeta⟩
  | succ fuel ih =>
    intro st hmeta hnodup
    by_cases h1 : st.seen_ids.card < cfg.target
    · by_cases h2 : st.current_id ∈ st.seen_ids
      · rw [walkGo_succ_skip cfg network extract fuel st h1 h2]
        exact ih (advance cfg st) hmeta hnodup
      · rw [walkGo_succ_fetch cfg network extract fuel st h1 h2]
        obtain ⟨hatt, hcur, hf, hsl, hfid, hcases⟩ :=
          walkIter_spec cfg network extract st
        rcases hcases with ⟨hm, hseen, hfile⟩ | ⟨m, hid, hm, hseen⟩
        · refine ih (advance cfg (walkIter cfg network extract st).1) ?_ ?_
          · show ∀ m ∈ (walkIter cfg network extract st).1.metadata,
              m.id ∈ (walkIter cfg network extract st).1.seen_ids
            rw [hm, hseen]
            exact hmeta
          · show ((walkIter cfg network extract st).1.metadata.map
              MetaRecord.id).Nodup
            rw [hm]
            exact hnodup
        · refine ih (advance cfg (walkIter cfg network extract st).1) ?_ ?_
          · show ∀ m' ∈ (walkIter cfg network extract st).1.metadata,
              m'.id ∈ (walkIter cfg network extract st).1.seen_ids
            rw [hm, hseen]
            intro m' hm'
            rcases List.mem_append.mp hm' with h | h
            · exact Finset.mem_insert_of_mem (hmeta m' h)
            · rw [List.mem_singleton.mp h, hid]
              exact Finset.mem_insert_self _ _
          · show ((walkIter cfg network extract st).1.metadata.map
              MetaRecord.id).Nodup
            rw [hm, List.map_append]
            rw [List.nodup_append]
            refine ⟨hnodup, by simp, ?_⟩
            intro a ha hb
            simp only [List.map_cons, List.map_nil, List.mem_singleton] at hb
            subst hb
            obtain ⟨m'', hm'', hidm⟩ := List.mem_map.mp ha
            rw [hid] at hidm
            exact h2 (hidm ▸ hmeta m'' hm'')
    · rw [walkGo_done cfg network extract (fuel + 1) st h1]
      exact ⟨hnodup, hmeta⟩

theorem walk_trace_spec (cfg : WalkConfig) (network : Int → FetchResult)
    (extract : List Char → List Char) (fuel : Nat) :
    ∀ st : WalkState,
      (walkGo cfg network extract fuel st).1.attempts =
        st.attempts +
          ((walkGo cfg network extract fuel st).2.1.filter Event.isFetch).length ∧
      ((walkGo cfg network extract fuel st).2.1.filter Event.isSleep).length =
        ((walkGo cfg network extract fuel st).2.1.filter Event.isFetch).length ∧
      ∀ i ∈ st.seen_ids,
        Event.fetch i ∉ (walkGo cfg network extract fuel st).2.1 := by
  induction fuel with
  | zero =>
    intro st
    simp only [walkGo]
    split <;> simp
  | succ fuel ih =>
    intro st
    by_cases h1 : st.seen_ids.card < cfg.target
    · by_cases h2 : st.current_id ∈ st.seen_ids
      · rw [walkGo_succ_skip cfg network extract fuel st h1 h2]
        exact ih (advance cfg st)
      · rw [walkGo_succ_fetch cfg network extract fuel st h1 h2]
        dsimp only
        obtain ⟨hatt, hcur, hf, hsl, hfid, hcases⟩ :=
          walkIter_spec cfg network extract st
        obtain ⟨ihatt, ihsl, ihseen⟩ :=
          ih (advance cfg (walkIter cfg network extract st).1)
        have hadv : (advance cfg (walkIter cfg network extract st).1).attempts =
            (walkIter cfg network extract st).1.attempts := rfl
        refine ⟨?_, ?_, ?_⟩
        · rw [List.filter_append, List.length_append, hf, ihatt, hadv, hatt]
          simp only [List.length_singleton]
          omega
        · rw [List.filter_append, List.filter_append, List.length_append,
            List.length_append, hf, hsl, ihsl]
          simp
        · intro i hi
          rw [List.mem_append]
          push_neg
          constructor
          · intro hmem
            exact h2 ((hfid i hmem) ▸ hi)
          · refine ihseen i ?_
            show i ∈ (walkIter cfg network extract st).1.seen_ids
            rcases hcases with ⟨_, hseen, _⟩ | ⟨m, _, _, hseen⟩
            · rw [hseen]; exact hi
            · rw [hseen]; exact Finset.mem_insert_of_mem hi
    · rw [walkGo_done cfg network extract (fuel + 1) st h1]
      simp

theorem walk_metadata_bound (cfg : WalkConfig) (network : Int → FetchResult)
    (extract : List Char → List Char) (fuel : Nat) :
    ∀ st : WalkState,
      (walkGo cfg network extract fuel st).1.metadata.length ≤
        st.metadata.length + (cfg.target - st.seen_ids.card) := by
  induction fuel with
  | zero =>
    intro st
    simp only [walkGo]
    split <;> simp
  | succ fuel ih =>
    intro st
    by_cases h1 : st.seen_ids.card < cfg.target
    · by_cases h2 : st.current_id ∈ st.seen_ids
      · rw [walkGo_succ_skip cfg network extract fuel st h1 h2]
        exact ih (advance cfg st)
      · rw [walkGo_succ_fetch cfg network extract fuel st h1 h2]
        dsimp only
        obtain ⟨hatt, hcur, hf, hsl, hfid, hcases⟩ :=
          walkIter_spec cfg network extract st
        have hb : (walkGo cfg network extract fuel
            (advance cfg (walkIter cfg network extract st).1)).1.metadata.length ≤
            (walkIter cfg network extract st).1.metadata.length +
              (cfg.target - (walkIter cfg network extract st).1.seen_ids.card) :=
          ih (advance cfg (walkIter cfg network extract st).1)
        rcases hcases with ⟨hm, hseen, hfile⟩ | ⟨m, hid, hm, hseen⟩
        · rw [hm, hseen] at hb
          exact hb
        · rw [hm, hseen, Finset.card_insert_of_not_mem h2] at hb
          simp only [List.length_append, List.length_singleton] at hb
          omega
    · rw [walkGo_done cfg network extract (fuel + 1) st h1]
      simp

theorem loadLines_inv (lines : List LedgerLine) :
    ∀ (seen0 : Finset Int) (meta0 : List MetaRecord) (seen : Finset Int)
      (meta : List MetaRecord),
      loadLines seen0 meta0 lines = .ok (seen, meta) →
      (∀ m ∈ meta0, m.id ∈ seen0) → ∀ m ∈ meta, m.id ∈ seen := by
  induction lines with
  | nil =>
    intro seen0 meta0 seen meta h hmeta
    simp only [loadLines, Except.ok.injEq, Prod.mk.injEq] at h
    obtain ⟨h1, h2⟩ := h
    subst h1
    subst h2
    exact hmeta
  | cons l rest ih =>
    intro seen0 meta0 seen meta h hmeta
    cases l with
    | malformed => simp [loadLines] at h
    | ok m =>
      simp only [loadLines] at h
      refine ih _ _ _ _ h ?_
      intro m' hm'
      rcases List.mem_append.mp hm' with hh | hh
      · exact Finset.mem_insert_of_mem (hmeta m' hh)
      · rw [List.mem_singleton.mp hh]
        exact Finset.mem_insert_self _ _

theorem load_meta_in_seen (file : Option (List LedgerLine)) (seen : Finset Int)
    (meta0 : List MetaRecord) (h : load file = .ok (seen, meta0)) :
    ∀ m ∈ meta0, m.id ∈ seen := by
  cases file with
  | none =>
    simp only [load, Except.ok.injEq, Prod.mk.injEq] at h
    obtain ⟨h1, h2⟩ := h
    subst h1
    subst h2
    simp
  | some lines => exact loadLines_inv lines ∅ [] seen meta0 h (by simp)

/-- C2: running the walker against a ledger whose load yields seen-set
`seen` and records `meta0` (with pairwise-distinct identifiers) never
produces a duplicate record: the final record identifiers are pairwise
distinct, no identifier of the loaded seen-set is ever fetched, the
attempt counter counts exactly the fetches performed (skips increment
nothing), and exactly one throttling sleep happens per fetch (skips sleep
never) — so each identifier determines at most one record per site. -/
theorem walker_idempotent_resume (cfg : WalkConfig) (network : Int → FetchResult)
    (extract : List Char → List Char) (fuel : Nat)
    (file : Option (List LedgerLine)) (seen : Finset Int)
    (meta0 : List MetaRecord)
    (hload : load file = .ok (seen, meta0))
    (hnodup : (meta0.map MetaRecord.id).Nodup) :
    ∃ st tr fin,
      collect_for_site cfg network extract file fuel = .ok (st, tr, fin) ∧
      (st.metadata.map MetaRecord.id).Nodup ∧
      (∀ i ∈ seen, Event.fetch i ∉ tr) ∧
      st.attempts = (tr.filter Event.isFetch).length ∧
      (tr.filter Event.isSleep).length = (tr.filter Event.isFetch).length := by
  have hcoll : collect_for_site cfg network extract file fuel =
      .ok (walkGo cfg network extract fuel
        { file := file, seen_ids := seen, metadata := meta0,
          current_id := cfg.start_id, attempts := 0 }) := by
    simp [collect_for_site, hload]
  obtain ⟨hnd, hmeta'⟩ := walk_preserves_nodup cfg network extract fuel
    { file := file, seen_ids := seen, metadata := meta0,
      current_id := cfg.start_id, attempts := 0 }
    (load_meta_in_seen file seen meta0 hload) hnodup
  obtain ⟨hatt, hslp, hseen⟩ := walk_trace_spec cfg network extract fuel
    { file := file, seen_ids := seen, metadata := meta0,
      current_id := cfg.start_id, attempts := 0 }
  refine ⟨_, _, _, by rw [hcoll], hnd, hseen, by simpa using hatt, hslp⟩

/-- Witness for C2: one-record ledger, all responses 404, two loop turns. -/
theorem walker_idempotent_resume_witness :
    ∃ st tr fin,
      collect_for_site demoCfg (fun _ => ⟨some 404, some []⟩) (fun b => b)
        (some [LedgerLine.ok ⟨5, "u5", "r5", "t5", 10, 4, 2, 200⟩]) 2 =
          .ok (st, tr, fin) ∧
      (st.metadata.map MetaRecord.id).Nodup ∧
      (∀ i ∈ (insert (5 : Int) ∅ : Finset Int), Event.fetch i ∉ tr) ∧
      st.attempts = (tr.filter Event.isFetch).length ∧
      (tr.filter Event.isSleep).length = (tr.filter Event.isFetch).length :=
  walker_idempotent_resume demoCfg (fun _ => ⟨some 404, some []⟩) (fun b => b) 2
    (some [LedgerLine.ok ⟨5, "u5", "r5", "t5", 10, 4, 2, 200⟩])
    (insert 5 ∅) [⟨5, "u5", "r5", "t5", 10, 4, 2, 200⟩] rfl (by decide)

/-- C6: when a fetched identifier is not accepted — status not 200, body
missing or empty, or classifier rejection — that loop iteration produces
no record, appends nothing to the ledger, writes no artifact, and leaves
the seen-set unchanged: the walk continues from the state with only the
attempt counter incremented and the identifier advanced, and the only
events of the iteration are the fetch and the throttling sleep. -/
theorem walker_reject_frame (cfg : WalkConfig) (network : Int → FetchResult)
    (extract : List Char → List Char) (fuel : Nat) (st : WalkState)
    (htarget : st.seen_ids.card < cfg.target)
    (hnew : st.current_id ∉ st.seen_ids)
    (hrej : ∀ b, (network st.current_id).status = some 200 →
        (network st.current_id).body = some b →
        b = [] ∨ is_likely_recipe b cfg.site_key = false) :
    walkGo cfg network extract (fuel + 1) st =
      ((walkGo cfg network extract fuel
          { st with attempts := st.attempts + 1,
                    current_id := st.current_id + cfg.step }).1,
       Event.fetch st.current_id :: Event.sleepDelay ::
         (walkGo cfg network extract fuel
            { st with attempts := st.attempts + 1,
                      current_id := st.current_id + cfg.step }).2.1,
       (walkGo cfg network extract fuel
          { st with attempts := st.attempts + 1,
                    current_id := st.current_id + cfg.step }).2.2) := by
  rw [walkGo_succ_fetch cfg network extract fuel st htarget hnew,
    walkIter_reject cfg network extract st hrej]
  rfl

/-- Witness for C6 at a concrete 404 response. -/
theorem walker_reject_frame_witness :
    walkGo demoCfg (fun _ => ⟨some 404, some []⟩) (fun b => b) 1 demoInit =
      ((walkGo demoCfg (fun _ => ⟨some 404, some []⟩) (fun b => b) 0
          { demoInit with attempts := 1, current_id := 9 }).1,
       Event.fetch 10 :: Event.sleepDelay ::
         (walkGo demoCfg (fun _ => ⟨some 404, some []⟩) (fun b => b) 0
            { demoInit with attempts := 1, current_id := 9 }).2.1,
       (walkGo demoCfg (fun _ => ⟨some 404, some []⟩) (fun b => b) 0
          { demoInit with attempts := 1, current_id := 9 }).2.2) :=
  walker_reject_frame demoCfg (fun _ => ⟨some 404, some []⟩) (fun b => b) 0
    demoInit (by decide) (by decide) (fun _ h _ => absurd h (by decide))

/-- C10: the per-site target bounds the lifetime total, not the per-run
total: with K identifiers already loaded from the ledger, a run produces
at most `target - K` new records (final record count at most
`meta0.length + (target - K)`), and when K has already reached the target
the walker stops at once — no fetch, no sleep, no state change. -/
theorem target_bounds_lifetime_total (cfg : WalkConfig)
    (network : Int → FetchResult) (extract : List Char → List Char)
    (fuel : Nat) (file : Option (List LedgerLine)) (seen : Finset Int)
    (meta0 : List MetaRecord)
    (hload : load file = .ok (seen, meta0)) :
    (∃ st tr fin,
      collect_for_site cfg network extract file fuel = .ok (st, tr, fin) ∧
      st.metadata.length ≤ meta0.length + (cfg.target - seen.card)) ∧
    (cfg.target ≤ seen.card →
      collect_for_site cfg network extract file fuel =
        .ok ({ file := file, seen_ids := seen, metadata := meta0,
               current_id := cfg.start_id, attempts := 0 }, [], true)) := by
  have hcoll : collect_for_site cfg network extract file fuel =
      .ok (walkGo cfg network extract fuel
        { file := file, seen_ids := seen, metadata := meta0,
          current_id := cfg.start_id, attempts := 0 }) := by
    simp [collect_for_site, hload]
  constructor
  · exact ⟨_, _, _, by rw [hcoll],
      walk_metadata_bound cfg network extract fuel
        { file := file, seen_ids := seen, metadata := meta0,
          current_id := cfg.start_id, attempts := 0 }⟩
  · intro hK
    rw [hcoll, walkGo_done cfg network extract fuel
      { file := file, seen_ids := seen, metadata := meta0,
        current_id := cfg.start_id, attempts := 0 }
      (by simpa using Nat.not_lt.mpr hK)]

/-- Site configuration with target count 2, for the C10 witness. -/
def cfgT2 : WalkConfig := { demoCfg with target := 2 }

/-- Witness for C10: a ledger already holding 2 records against target 2. -/
theorem target_bounds_lifetime_total_witness :
    (∃ st tr fin,
      collect_for_site cfgT2 (fun _ => ⟨some 404, some []⟩) (fun b => b)
        (some [LedgerLine.ok ⟨5, "v5", "q5", "s5", 10, 4, 2, 200⟩,
               LedgerLine.ok ⟨7, "v7", "q7", "s7", 11, 5, 3, 200⟩]) 4 =
          .ok (st, tr, fin) ∧
      st.metadata.length ≤
        ([⟨5, "v5", "q5", "s5", 10, 4, 2, 200⟩,
          (⟨7, "v7", "q7", "s7", 11, 5, 3, 200⟩ : MetaRecord)]).length +
          (cfgT2.target - (insert 7 (insert (5 : Int) ∅) : Finset Int).card)) ∧
    (cfgT2.target ≤ (insert 7 (insert (5 : Int) ∅) : Finset Int).card →
      collect_for_site cfgT2 (fun _ => ⟨some 404, some []⟩) (fun b => b)
        (some [LedgerLine.ok ⟨5, "v5", "q5", "s5", 10, 4, 2, 200⟩,
               LedgerLine.ok ⟨7, "v7", "q7", "s7", 11, 5, 3, 200⟩]) 4 =
        .ok ({ file := some [LedgerLine.ok ⟨5, "v5", "q5", "s5", 10, 4, 2, 200⟩,
                             LedgerLine.ok ⟨7, "v7", "q7", "s7", 11, 5, 3, 200⟩],
               seen_ids := insert 7 (insert (5 : Int) ∅),
               metadata := [⟨5, "v5", "q5", "s5", 10, 4, 2, 200⟩,
                            ⟨7, "v7", "q7", "s7", 11, 5, 3, 200⟩],
               current_id := cfgT2.start_id, attempts := 0 }, [], true)) :=
  target_bounds_lifetime_total cfgT2 (fun _ => ⟨some 404, some []⟩) (fun b => b)
    4 (some [LedgerLine.ok ⟨5, "v5", "q5", "s5", 10, 4, 2, 200⟩,
             LedgerLine.ok ⟨7, "v7", "q7", "s7", 11, 5, 3, 200⟩])
    (insert 7 (insert (5 : Int) ∅))
    [⟨5, "v5", "q5", "s5", 10, 4, 2, 200⟩, ⟨7, "v7", "q7", "s7", 11, 5, 3, 200⟩]
    rfl

end RecipeCrawl
